import Mathlib

/-!
Verification of the streaming protocol translator and request-side
normalization of the github-copilot-proxy gateway.

The definitions below are a shallow embedding of the TypeScript source:
  * `src/services/copilot-service.ts` — model alias resolution
    (`mapToCopilotModel` over `MODEL_MAPPING`), tool schema normalization
    (`convertToolsForCopilot`), and message-history repair
    (`fixToolMessagePairing`);
  * `src/routes/openai.ts`, `handleStreamingResponses` — the
    responses-variant SSE synthesizer state machine.

JavaScript strings are embedded as Lean `String` (the sources only ever
take ASCII-sized prefixes and compare for equality, so the UTF-16 versus
scalar-value distinction is immaterial here).  JavaScript `undefined` and
`null` are embedded as `Option.none`; string truthiness (`""` is falsy)
is made explicit where the source relies on it.
-/

namespace CopilotProxy

/-! ## Embedding of `src/services/copilot-service.ts` -/

/-- The `MODEL_MAPPING` table from copilot-service.ts, as an association
list from lower-cased requested identifier to canonical identifier,
in source order. -/
def MODEL_MAPPING : List (String × String) := [
  ("claude-haiku-4.5",            "claude-haiku-4.5"),
  ("claude-4.5-haiku",            "claude-haiku-4.5"),
  ("claude-opus-4.5",             "claude-opus-4.5"),
  ("claude-4.5-opus",             "claude-opus-4.5"),
  ("claude-opus-4.6",             "claude-opus-4.6"),
  ("claude-4.6-opus",             "claude-opus-4.6"),
  ("claude-opus-4.6-fast",        "claude-opus-4.6-fast"),
  ("claude-sonnet-4",             "claude-sonnet-4"),
  ("claude-4-sonnet",             "claude-sonnet-4"),
  ("claude-sonnet-4.5",           "claude-sonnet-4.5"),
  ("claude-4.5-sonnet",           "claude-sonnet-4.5"),
  ("claude-sonnet-4.6",           "claude-sonnet-4.6"),
  ("claude-4.6-sonnet",           "claude-sonnet-4.6"),
  ("gpt-4o",                      "gpt-4o"),
  ("gpt-4.1",                     "gpt-4.1"),
  ("gpt-5-mini",                  "gpt-5-mini"),
  ("gpt-5.1",                     "gpt-5.1"),
  ("gpt-5.1-codex",               "gpt-5.1-codex"),
  ("gpt-5.1-codex-mini",          "gpt-5.1-codex-mini"),
  ("gpt-5.1-codex-max",           "gpt-5.1-codex-max"),
  ("gpt-5.2",                     "gpt-5.2"),
  ("gpt-5.2-codex",               "gpt-5.2-codex"),
  ("gpt-5.3-codex",               "gpt-5.3-codex"),
  ("gemini-2.5-pro",              "gemini-2.5-pro"),
  ("gemini-3-flash",              "gemini-3-flash"),
  ("gemini-3-pro",                "gemini-3-pro"),
  ("gemini-3.1-pro",              "gemini-3.1-pro"),
  ("grok-code-fast-1",            "grok-code-fast-1"),
  ("raptor-mini",                 "raptor-mini"),
  ("goldeneye",                   "goldeneye"),
  ("claude-3.5-sonnet",           "claude-sonnet-4.6"),
  ("claude-3-opus",               "claude-opus-4.6"),
  ("claude-3-sonnet",             "claude-sonnet-4.6"),
  ("claude-opus-4",               "claude-opus-4.6"),
  ("claude-4-opus",               "claude-opus-4.6"),
  ("claude-opus-4.1",             "claude-opus-4.6"),
  ("gpt-4",                       "gpt-4.1"),
  ("gpt-4-turbo",                 "gpt-4.1"),
  ("gpt-4o-mini",                 "gpt-5-mini"),
  ("gpt-3.5-turbo",               "gpt-4.1"),
  ("gpt-5",                       "gpt-5.2"),
  ("gpt-5-codex",                 "gpt-5.2-codex"),
  ("o1",                          "gpt-5-mini"),
  ("o1-preview",                  "gpt-5-mini"),
  ("o1-mini",                     "gpt-5-mini"),
  ("o3",                          "gpt-5.2"),
  ("o3-mini",                     "gpt-5-mini"),
  ("o4-mini",                     "gpt-5-mini"),
  ("gemini-2.0-flash",            "gemini-2.5-pro"),
  ("gemini-3-pro-preview",        "gemini-3-pro"),
  ("gemini-3-flash-preview",      "gemini-3-flash"),
  ("default",                     "gpt-4o")]

/-- Lower-casing of a model identifier, character by character
(`toLowerCase` in the source; the two agree on the ASCII identifiers
involved). -/
def jsToLower (s : String) : String :=
  String.mk (s.data.map Char.toLower)

/-- The model alias resolver `mapToCopilotModel`: look the lower-cased
requested model up in `MODEL_MAPPING`; on a hit return the mapped value,
otherwise return the input unchanged. -/
def mapToCopilotModel (requestedModel : String) : String :=
  match MODEL_MAPPING.lookup (jsToLower requestedModel) with
  | some mapped => mapped
  | none => requestedModel

/-! ### Tool schema normalization (`convertToolsForCopilot`) -/

/-- A JavaScript value sitting where a string is expected: either an
actual string or some truthy non-string value (whose `typeof` check
fails). -/
inductive JsStr
  | str (s : String)
  | nonString
deriving DecidableEq, Repr

/-- JavaScript truthiness of an optional string-expected value:
`undefined`, `null` and `""` are falsy. -/
def JsStr.truthy : Option JsStr → Bool
  | some (.str s) => s ≠ ""
  | some .nonString => true
  | none => false

/-- A value found in a `parameters` position: an arbitrary JSON schema,
kept abstract, plus the default empty object schema the source
substitutes for a missing one. -/
inductive SchemaVal
  | emptyObjectSchema
  | node (tag : Nat)
deriving DecidableEq, Repr

/-- The raw `function` / `custom` sub-object of a caller-supplied tool
entry; every field may be absent. -/
structure RawFn where
  name : Option JsStr := none
  description : Option String := none
  parameters : Option SchemaVal := none
  strict : Option Bool := none
deriving DecidableEq, Repr

/-- A caller-supplied tool entry of arbitrary shape: `nullish` for a
falsy entry (skipped by `if (!tool) continue`), otherwise an object
with the fields the normalizer inspects. -/
inductive RawTool
  | nullish
  | obj (type : Option String) (function : Option RawFn)
      (custom : Option RawFn) (name : Option JsStr)
      (description : Option String) (parameters : Option SchemaVal)
deriving DecidableEq, Repr

/-- A normalized tool definition as sent upstream (always
`type: "function"`). -/
structure Tool where
  name : String
  description : String
  parameters : SchemaVal
  strict : Option Bool := none
deriving DecidableEq, Repr

/-- The string carried by a `JsStr` when it is one (used to read a name
whose validity was already checked). -/
def JsStr.strVal : Option JsStr → String
  | some (.str s) => s
  | _ => ""

/-- Whether a name position holds a truthy string (the source checks
`name && typeof name === "string" && name.length > 0`; truthiness of a
string already excludes `""`, so the branch without the explicit length
check accepts exactly the same names). -/
def validName (n : Option JsStr) : Bool :=
  match n with
  | some (.str s) => s ≠ ""
  | _ => false

/-- Normalization of a single tool entry: the if/else-if chain in the
body of the loop of `convertToolsForCopilot`.  `none` means the entry is
skipped (with a diagnostic in the source). -/
def convertOne : RawTool → Option Tool
  | .nullish => none
  | .obj type function custom name description parameters =>
    if type = some "function" ∧ function.isSome then
      let fn := function.getD {}
      if validName fn.name then
        some { name := JsStr.strVal fn.name,
               description := fn.description.getD "",
               parameters := fn.parameters.getD .emptyObjectSchema,
               strict := fn.strict }
      else none
    else if type = some "custom" ∧ custom.isSome then
      let fn := custom.getD {}
      if validName fn.name then
        some { name := JsStr.strVal fn.name,
               description := fn.description.getD "",
               parameters := fn.parameters.getD .emptyObjectSchema,
               strict := none }
      else none
    else if validName name then
      some { name := JsStr.strVal name,
             description := description.getD "",
             parameters := parameters.getD .emptyObjectSchema,
             strict := none }
    else
      none

/-- The loop of `convertToolsForCopilot`: push the conversion of each
convertible entry, in order. -/
def convertLoop (acc : List Tool) : List RawTool → List Tool
  | [] => acc
  | t :: ts =>
    match convertOne t with
    | some c => convertLoop (acc ++ [c]) ts
    | none => convertLoop acc ts

/-- The tool schema normalizer `convertToolsForCopilot`: `none` when no
input was given, the input was empty, or every entry was filtered out;
otherwise the converted entries in original order. -/
def convertToolsForCopilot (tools : Option (List RawTool)) : Option (List Tool) :=
  match tools with
  | none => none
  | some ts =>
    if ts.length = 0 then none
    else
      let convertedTools := convertLoop [] ts
      if convertedTools.length = 0 then none
      else some convertedTools

/-! ### Message history repair (`fixToolMessagePairing`) -/

/-- Message roles accepted by the gateway. -/
inductive Role
  | system
  | user
  | assistant
  | function
  | tool
deriving DecidableEq, Repr

/-- A tool call emitted by an assistant message. -/
structure ToolCall where
  id : String
  name : String := ""
  arguments : String := ""
deriving DecidableEq, Repr

/-- A chat message (`OpenAIMessage` in the source types): `content` may
be null, `tool_calls` and `tool_call_id` may be absent. -/
structure OpenAIMessage where
  role : Role
  content : Option String
  tool_calls : Option (List ToolCall) := none
  tool_call_id : Option String := none
deriving DecidableEq, Repr

/-- The tool-call ids an individual message contributes to the seen set:
for an assistant message with a (possibly empty) `tool_calls` array, the
truthy ids of its calls; nothing otherwise. -/
def toolIdsOf (msg : OpenAIMessage) : List String :=
  match msg.role, msg.tool_calls with
  | Role.assistant, some tcs => (tcs.filter (fun tc => tc.id ≠ "")).map (·.id)
  | _, _ => []

/-- Whether a message is an orphaned tool result with respect to a seen
set: a tool-role message with a truthy `tool_call_id` that is not in the
set. -/
def isOrphan (seen : List String) (msg : OpenAIMessage) : Bool :=
  match msg.role, msg.tool_call_id with
  | Role.tool, some cid => cid ≠ "" && !(seen.contains cid)
  | _, _ => false

/-- The user-role message an orphaned tool result is rewritten into: the
original content in brackets, capped at 200 characters with an ellipsis
marker when longer (a null content prints as the string `null`, as the
template literal in the source does). -/
def orphanReplacement (content : Option String) : OpenAIMessage :=
  { role := Role.user,
    content := some ("[Previous tool result: " ++
      (match content with
       | some s => s.take 200 ++ (if 200 < s.length then "..." else "")
       | none => "null") ++ "]") }

/-- The loop of `fixToolMessagePairing`: one pass over the messages,
accumulating seen tool-call ids, rewriting orphaned tool results in
place and passing everything else through. -/
def fixGo (seen : List String) : List OpenAIMessage → List OpenAIMessage
  | [] => []
  | msg :: rest =>
    let seen' := seen ++ toolIdsOf msg
    if isOrphan seen' msg then
      orphanReplacement msg.content :: fixGo seen' rest
    else
      msg :: fixGo seen' rest

/-- The message-history repair `fixToolMessagePairing`. -/
def fixToolMessagePairing (messages : List OpenAIMessage) : List OpenAIMessage :=
  fixGo [] messages

/-! ## Embedding of `handleStreamingResponses` in `src/routes/openai.ts`

The SSE parser delivers the `data:` payload of each upstream frame to
`onEvent`.  A payload is either the literal `[DONE]` sentinel, a JSON
chunk that parses (embedded as the fields of `choices[0].delta` that the
handler reads), or a payload on which `JSON.parse` throws.  After the
last frame the body emits `end`, handled by the `reader.on("end")`
callback. -/

/-- The `function` sub-object of one element of `delta.tool_calls`. -/
structure TCFn where
  name : Option String := none
  arguments : Option String := none
deriving DecidableEq, Repr

/-- One element of `delta.tool_calls` in an upstream chunk. -/
structure ToolCallDelta where
  id : Option String := none
  function : Option TCFn := none
deriving DecidableEq, Repr

/-- The parts of `choices[0].delta` read by the handler: `content`
(absent or a string) and `tool_calls`. -/
structure ChunkDelta where
  content : Option String := none
  tool_calls : Option (List ToolCallDelta) := none
deriving DecidableEq, Repr

/-- One upstream SSE frame as seen by `onEvent`: the `[DONE]` sentinel,
a successfully parsed chunk, or a frame whose payload fails to parse as
JSON (`err` standing for the message of the raised error). -/
inductive Frame
  | done
  | chunk (delta : ChunkDelta)
  | malformed (err : String)
deriving DecidableEq, Repr

/-- Outbound SSE events of the responses variant, carrying the payload
fields the claims are about. -/
inductive SSEEvent
  | responseCreated
  | outputItemAddedMessage
  | contentPartAdded
  | outputTextDelta (delta : String)
  | outputItemAddedFunctionCall (callId fnName args : String)
  | functionCallArgumentsDelta (delta : String)
  | outputTextDone (text : String)
  | outputItemDone (text : String)
  | responseCompleted (text : String)
  | responseDone (text : String)
  | errorEvent (msg : String)
deriving DecidableEq, Repr

/-- The per-stream mutable state of `handleStreamingResponses`. -/
structure StreamState where
  accumulatedText : String := ""
  firstChunk : Bool := true
  completionSent : Bool := false
deriving DecidableEq, Repr

/-- The state at stream start. -/
def initialState : StreamState := {}

/-- JavaScript truthiness of an optional string. -/
def truthy : Option String → Bool
  | some s => s ≠ ""
  | none => false

/-- The text the handler extracts from a chunk:
`parsed.choices?.[0]?.delta?.content || ""`. -/
def textOf (d : ChunkDelta) : String :=
  match d.content with
  | some s => s
  | none => ""

/-- The `name` carried by a tool-call delta, if any. -/
def fnNameOf (tc : ToolCallDelta) : Option String :=
  tc.function.bind (·.name)

/-- The `arguments` carried by a tool-call delta, if any. -/
def fnArgsOf (tc : ToolCallDelta) : Option String :=
  tc.function.bind (·.arguments)

/-- The event emitted for one element of `delta.tool_calls`: an
`output_item.added` of kind function-call when the delta carries a
truthy id and function name, else a `function_call_arguments.delta`
when it carries truthy arguments, else nothing. -/
def toolCallEvent (tc : ToolCallDelta) : Option SSEEvent :=
  if truthy tc.id ∧ truthy (fnNameOf tc) then
    some (.outputItemAddedFunctionCall (tc.id.getD "")
      ((fnNameOf tc).getD "") ((fnArgsOf tc).getD ""))
  else if truthy (fnArgsOf tc) then
    some (.functionCallArgumentsDelta ((fnArgsOf tc).getD ""))
  else
    none

/-- The closing quartet, each event carrying the accumulated text; the
source writes the same four events, in this order, in both the `[DONE]`
branch and the `end` handler. -/
def completionEvents (text : String) : List SSEEvent :=
  [.outputTextDone text, .outputItemDone text,
   .responseCompleted text, .responseDone text]

/-- The `onEvent` callback of the SSE parser: one upstream frame in, the
updated state and the outbound events written for it. -/
def onEvent (s : StreamState) : Frame → StreamState × List SSEEvent
  | .done =>
    if s.completionSent then (s, [])
    else ({ s with completionSent := true }, completionEvents s.accumulatedText)
  | .malformed err => (s, [.errorEvent err])
  | .chunk d =>
    let toolEvs := (d.tool_calls.getD []).filterMap toolCallEvent
    let text := textOf d
    if text = "" then (s, toolEvs)
    else
      let firstEvs : List SSEEvent :=
        if s.firstChunk then [.outputItemAddedMessage, .contentPartAdded] else []
      ({ s with firstChunk := false,
                accumulatedText := s.accumulatedText ++ text },
       toolEvs ++ firstEvs ++ [.outputTextDelta text])

/-- Feeding a sequence of frames through `onEvent`, collecting the
outbound events in emission order. -/
def runFrames (s : StreamState) : List Frame → StreamState × List SSEEvent
  | [] => (s, [])
  | f :: fs =>
    let step := onEvent s f
    let rest := runFrames step.1 fs
    (rest.1, step.2 ++ rest.2)

/-- The `reader.on("end")` handler: when text was accumulated and the
completion quartet was not already sent, send it now (the upstream may
close the body without ever sending `[DONE]`). -/
def endEvents (s : StreamState) : List SSEEvent :=
  if 0 < s.accumulatedText.length ∧ s.completionSent = false then
    completionEvents s.accumulatedText
  else []

/-- The full outbound responses-variant stream for an upstream frame
sequence followed by the end of the body: the initial
`response.created` event, then the events of each frame in order, then
the events of the `end` handler. -/
def responsesStream (frames : List Frame) : List SSEEvent :=
  let run := runFrames initialState frames
  .responseCreated :: (run.2 ++ endEvents run.1)

/-- The state after the first `i` frames of a stream have been
processed. -/
def stateAfter (frames : List Frame) (i : Nat) : StreamState :=
  (runFrames initialState (frames.take i)).1

/-- The events emitted while processing frame `i` of a stream. -/
def eventsOfFrame (frames : List Frame) (i : Fin frames.length) : List SSEEvent :=
  (onEvent (stateAfter frames i) (frames.get i)).2

/-- Recognizer for `response.completed` events. -/
def isResponseCompleted : SSEEvent → Bool
  | .responseCompleted _ => true
  | _ => false

/-- Recognizer for `response.done` events. -/
def isResponseDone : SSEEvent → Bool
  | .responseDone _ => true
  | _ => false

/-- Recognizer for `response.output_text.done` events. -/
def isOutputTextDone : SSEEvent → Bool
  | .outputTextDone _ => true
  | _ => false

/-- Recognizer for `response.output_item.done` events. -/
def isOutputItemDone : SSEEvent → Bool
  | .outputItemDone _ => true
  | _ => false

/-- Recognizer for the four events of the closing quartet. -/
def isClosingEvent : SSEEvent → Bool
  | .outputTextDone _ => true
  | .outputItemDone _ => true
  | .responseCompleted _ => true
  | .responseDone _ => true
  | _ => false

/-- Recognizer for the two message-item lifecycle events
(`response.output_item.added` for the assistant message item and
`response.content_part.added`). -/
def isLifecycleEvent : SSEEvent → Bool
  | .outputItemAddedMessage => true
  | .contentPartAdded => true
  | _ => false

/-- Recognizer for the two tool-call events. -/
def isToolEvent : SSEEvent → Bool
  | .outputItemAddedFunctionCall _ _ _ => true
  | .functionCallArgumentsDelta _ => true
  | _ => false

/-- Recognizer for function-call `response.output_item.added` events. -/
def isFnCallAdded : SSEEvent → Bool
  | .outputItemAddedFunctionCall _ _ _ => true
  | _ => false

/-- Recognizer for inline `error` events. -/
def isErrorEvent : SSEEvent → Bool
  | .errorEvent _ => true
  | _ => false

/-- Recognizer for the message-item `response.output_item.added`
event. -/
def isItemAddedMessage : SSEEvent → Bool
  | .outputItemAddedMessage => true
  | _ => false

/-- Recognizer for the `response.content_part.added` event. -/
def isContentPartAdded : SSEEvent → Bool
  | .contentPartAdded => true
  | _ => false

/-- The concatenation, in arrival order, of the text fragments of a
delta sequence (empty fragments contribute nothing). -/
def concatTexts : List ChunkDelta → String
  | [] => ""
  | d :: ds => textOf d ++ concatTexts ds

/-- The text a frame carries (only parsed chunks carry text). -/
def frameText : Frame → String
  | .chunk d => textOf d
  | _ => ""

/-- The tool-call deltas a frame carries. -/
def frameToolCalls : Frame → List ToolCallDelta
  | .chunk d => d.tool_calls.getD []
  | _ => []

/-- A two-frame upstream sequence: one chunk with empty text, then one
chunk carrying the text `hi`. -/
def c3Frames : List Frame :=
  [Frame.chunk {}, Frame.chunk { content := some "hi" }]

/-- A chunk frame that carries only a tool-call delta and no text. -/
def c8Frame : Frame :=
  Frame.chunk
    { content := none,
      tool_calls := some
        [{ id := some "call_1",
           function := some { name := some "f", arguments := some "" } }] }

/-- The tool-call ids added to the seen set over the first `i + 1`
messages of a history (exactly the set `fixGo` has accumulated when it
examines message `i`). -/
def seenThrough (ms : List OpenAIMessage) (i : Nat) : List String :=
  (ms.take (i + 1)).flatMap toolIdsOf

/-- A concrete message history: a tool result with the falsy id `""`, a
tool result referencing id `x` before any assistant emitted it, an
assistant message emitting id `x`, and a tool result referencing `x`
after it was emitted. -/
def c4Msgs : List OpenAIMessage :=
  [{ role := Role.tool, content := some "early", tool_call_id := some "" },
   { role := Role.tool, content := some "a", tool_call_id := some "x" },
   { role := Role.assistant, content := none, tool_calls := some [{ id := "x" }] },
   { role := Role.tool, content := some "b", tool_call_id := some "x" }]

/-! ## Helper lemmas -/

theorem lookup_mem : ∀ {l : List (String × String)} {k v : String},
    l.lookup k = some v → (k, v) ∈ l := by
  intro l
  induction l with
  | nil => intro k v h; simp [List.lookup] at h
  | cons p rest ih =>
    intro k v h
    obtain ⟨a, b⟩ := p
    rw [List.lookup] at h
    split at h
    · next heq =>
      cases h
      have hk : k = a := eq_of_beq heq
      subst hk
      exact List.mem_cons_self _ _
    · exact List.mem_cons_of_mem _ (ih h)

theorem toolIdsOf_orphanReplacement (c : Option String) :
    toolIdsOf (orphanReplacement c) = [] := rfl

theorem isOrphan_orphanReplacement (seen : List String) (c : Option String) :
    isOrphan seen (orphanReplacement c) = false := rfl

theorem isOrphan_eq_true_iff {seen : List String} {msg : OpenAIMessage} :
    isOrphan seen msg = true ↔
      msg.role = Role.tool ∧
        ∃ cid, msg.tool_call_id = some cid ∧ cid ≠ "" ∧ cid ∉ seen := by
  obtain ⟨role, content, tcs, tcid⟩ := msg
  cases role <;> cases tcid <;>
    simp [isOrphan, List.contains, List.elem_iff]

theorem toolIdsOf_of_isOrphan {seen : List String} {msg : OpenAIMessage}
    (h : isOrphan seen msg = true) : toolIdsOf msg = [] := by
  have hrole := (isOrphan_eq_true_iff.mp h).1
  obtain ⟨role, content, tcs, tcid⟩ := msg
  subst hrole
  cases tcs <;> rfl

theorem fixGo_length (ms : List OpenAIMessage) :
    ∀ seen, (fixGo seen ms).length = ms.length := by
  induction ms with
  | nil => intro seen; rfl
  | cons msg rest ih =>
    intro seen
    simp only [fixGo]
    split <;> simp [ih]

theorem fixGo_getElem? (ms : List OpenAIMessage) :
    ∀ seen i, (fixGo seen ms)[i]? =
      (ms[i]?).map (fun m =>
        if isOrphan (seen ++ (ms.take (i + 1)).flatMap toolIdsOf) m then
          orphanReplacement m.content
        else m) := by
  induction ms with
  | nil => intro seen i; rfl
  | cons msg rest ih =>
    intro seen i
    cases i with
    | zero =>
      simp only [fixGo]
      split <;>
        simp_all [List.take_succ_cons, List.take_zero, List.flatMap_cons,
          List.flatMap_nil, List.append_nil, List.getElem?_cons_zero]
    | succ j =>
      simp only [fixGo]
      split <;>
      · simp only [List.getElem?_cons_succ, List.take_succ_cons,
          List.flatMap_cons]
        rw [← List.append_assoc]
        exact ih _ _

theorem fixGo_idem (ms : List OpenAIMessage) :
    ∀ seen, fixGo seen (fixGo seen ms) = fixGo seen ms := by
  induction ms with
  | nil => intro seen; rfl
  | cons msg rest ih =>
    intro seen
    simp only [fixGo]
    by_cases h : isOrphan (seen ++ toolIdsOf msg) msg = true
    · rw [if_pos h]
      have hids : toolIdsOf msg = [] := toolIdsOf_of_isOrphan h
      rw [hids]
      simp only [fixGo, toolIdsOf_orphanReplacement, List.append_nil,
        isOrphan_orphanReplacement, Bool.false_eq_true, if_false]
      rw [ih]
    · rw [if_neg h]
      simp only [fixGo]
      rw [if_neg h, ih]

theorem string_length_pos {s : String} : 0 < s.length ↔ s ≠ "" := by
  constructor
  · intro h he
    rw [he] at h
    exact Nat.lt_irrefl 0 h
  · intro hne
    by_contra hle
    push_neg at hle
    apply hne
    have hz : s.data.length = 0 := Nat.le_zero.mp hle
    exact String.ext (List.length_eq_zero.mp hz)

theorem runFrames_append (l1 : List Frame) :
    ∀ (l2 : List Frame) (s : StreamState),
      runFrames s (l1 ++ l2) =
        ((runFrames (runFrames s l1).1 l2).1,
         (runFrames s l1).2 ++ (runFrames (runFrames s l1).1 l2).2) := by
  induction l1 with
  | nil => intro l2 s; simp [runFrames]
  | cons f fs ih =>
    intro l2 s
    simp only [List.cons_append, runFrames, List.append_eq, ih,
      List.append_assoc]

theorem toolCallEvent_is_tool {tc : ToolCallDelta} {e : SSEEvent}
    (h : toolCallEvent tc = some e) : isToolEvent e = true := by
  unfold toolCallEvent at h
  split at h
  · cases h; rfl
  · split at h
    · cases h; rfl
    · exact Option.noConfusion h

theorem toolEvs_filter (p : SSEEvent → Bool)
    (hp : ∀ e, isToolEvent e = true → p e = false) (tcs : List ToolCallDelta) :
    (tcs.filterMap toolCallEvent).filter p = [] := by
  rw [List.filter_eq_nil]
  intro e he
  rw [List.mem_filterMap] at he
  obtain ⟨tc, _, htc⟩ := he
  simp [hp e (toolCallEvent_is_tool htc)]

theorem toolEvs_filter_self (tcs : List ToolCallDelta) :
    (tcs.filterMap toolCallEvent).filter isToolEvent =
      tcs.filterMap toolCallEvent := by
  rw [List.filter_eq_self]
  intro e he
  rw [List.mem_filterMap] at he
  obtain ⟨tc, _, htc⟩ := he
  exact toolCallEvent_is_tool htc

theorem runChunks_state (ds : List ChunkDelta) : ∀ s : StreamState,
    (runFrames s (ds.map Frame.chunk)).1.accumulatedText =
      s.accumulatedText ++ concatTexts ds ∧
    (runFrames s (ds.map Frame.chunk)).1.completionSent = s.completionSent := by
  induction ds with
  | nil => intro s; simp [runFrames, concatTexts, String.append_empty]
  | cons d ds ih =>
    intro s
    simp only [List.map_cons, runFrames, onEvent, concatTexts]
    by_cases ht : textOf d = ""
    · rw [if_pos ht]
      refine ⟨?_, (ih s).2⟩
      rw [ht, String.empty_append]
      exact (ih s).1
    · rw [if_neg ht]
      have h2 := ih
        { s with firstChunk := false,
                 accumulatedText := s.accumulatedText ++ textOf d }
      refine ⟨?_, h2.2⟩
      rw [h2.1]
      exact String.append_assoc _ _ _

theorem runChunks_filter (p : SSEEvent → Bool)
    (hTool : ∀ e, isToolEvent e = true → p e = false)
    (hAdded : p SSEEvent.outputItemAddedMessage = false)
    (hPart : p SSEEvent.contentPartAdded = false)
    (hDelta : ∀ t, p (SSEEvent.outputTextDelta t) = false) :
    ∀ (ds : List ChunkDelta) (s : StreamState),
      (runFrames s (ds.map Frame.chunk)).2.filter p = [] := by
  intro ds
  induction ds with
  | nil => intro s; simp [runFrames]
  | cons d ds ih =>
    intro s
    simp only [List.map_cons, runFrames, onEvent]
    by_cases ht : textOf d = ""
    · rw [if_pos ht]
      simp [List.filter_append, toolEvs_filter p hTool, ih]
    · rw [if_neg ht]
      cases hfc : s.firstChunk <;>
        simp [hfc, List.filter_append, toolEvs_filter p hTool, ih,
          hAdded, hPart, hDelta]

theorem filter_completionEvents_eq_nil (p : SSEEvent → Bool)
    (hp : ∀ t, (completionEvents t).filter p = []) (s : StreamState) :
    (endEvents s).filter p = [] := by
  unfold endEvents
  split
  · exact hp _
  · rfl

theorem tool_not_lifecycle :
    ∀ e, isToolEvent e = true → isLifecycleEvent e = false := by
  intro e he
  cases e <;> simp [isToolEvent] at he <;> rfl

theorem countP_eq_countP_filter (p q : SSEEvent → Bool)
    (hpq : ∀ e, p e = true → q e = true) (l : List SSEEvent) :
    l.countP p = (l.filter q).countP p := by
  rw [List.countP_filter]
  apply List.countP_congr
  intro a _
  cases hp : p a
  · simp
  · simp [hpq a hp]

theorem runFrames_firstChunk (fs : List Frame) : ∀ s : StreamState,
    (runFrames s fs).1.firstChunk =
      (s.firstChunk && fs.all (fun f => frameText f == "")) := by
  induction fs with
  | nil => intro s; simp [runFrames]
  | cons f fs ih =>
    intro s
    simp only [runFrames, List.all_cons]
    cases f with
    | done =>
      simp only [onEvent]
      by_cases hc : s.completionSent = true
      · rw [if_pos hc]
        simp [ih, frameText]
      · rw [if_neg hc]
        simp [ih, frameText]
    | malformed e => simp [onEvent, ih, frameText]
    | chunk d =>
      simp only [onEvent]
      by_cases ht : textOf d = ""
      · rw [if_pos ht]
        simp [ih, frameText, ht]
      · rw [if_neg ht]
        have hbe : (textOf d == "") = false := beq_eq_false_iff_ne.mpr ht
        simp [ih, frameText, hbe]

theorem runFrames_filter_lifecycle (fs : List Frame) : ∀ s : StreamState,
    (runFrames s fs).2.filter isLifecycleEvent =
      if s.firstChunk = true ∧ fs.any (fun f => frameText f != "") = true then
        [SSEEvent.outputItemAddedMessage, SSEEvent.contentPartAdded]
      else [] := by
  induction fs with
  | nil => intro s; simp [runFrames]
  | cons f fs ih =>
    intro s
    simp only [runFrames, List.any_cons, List.filter_append]
    cases f with
    | done =>
      simp only [onEvent]
      by_cases hc : s.completionSent = true
      · rw [if_pos hc]
        simp [ih, frameText]
      · rw [if_neg hc]
        simp [ih, frameText, completionEvents, isLifecycleEvent]
    | malformed e => simp [onEvent, ih, frameText, isLifecycleEvent]
    | chunk d =>
      simp only [onEvent]
      by_cases ht : textOf d = ""
      · rw [if_pos ht]
        simp [ih, frameText, ht, toolEvs_filter _ tool_not_lifecycle]
      · rw [if_neg ht]
        have hbe : (textOf d != "") = true := by simp [ht]
        by_cases hfc : s.firstChunk = true
        · simp [hfc, hbe, ih, List.filter_append,
            toolEvs_filter _ tool_not_lifecycle, isLifecycleEvent]
          exact (if_pos (Or.inl ht)).symm
        · simp [hfc, ih, List.filter_append,
            toolEvs_filter _ tool_not_lifecycle, isLifecycleEvent]

theorem onEvent_lifecycle_empty {f : Frame} (s : StreamState)
    (hf : frameText f = "") :
    ((onEvent s f).2).filter isLifecycleEvent = [] := by
  cases f with
  | done =>
    simp only [onEvent]
    split <;> simp [completionEvents, isLifecycleEvent]
  | malformed e => rfl
  | chunk d =>
    have ht : textOf d = "" := hf
    simp only [onEvent]
    rw [if_pos ht]
    exact toolEvs_filter _ tool_not_lifecycle _

theorem onEvent_lifecycle_latched {f : Frame} (s : StreamState)
    (hs : s.firstChunk = false) :
    ((onEvent s f).2).filter isLifecycleEvent = [] := by
  cases f with
  | done =>
    simp only [onEvent]
    split <;> simp [completionEvents, isLifecycleEvent]
  | malformed e => rfl
  | chunk d =>
    simp only [onEvent]
    by_cases ht : textOf d = ""
    · rw [if_pos ht]
      exact toolEvs_filter _ tool_not_lifecycle _
    · rw [if_neg ht]
      simp [hs, List.filter_append, toolEvs_filter _ tool_not_lifecycle,
        isLifecycleEvent]

theorem onEvent_lifecycle_first {d : ChunkDelta} (s : StreamState)
    (hs : s.firstChunk = true) (ht : textOf d ≠ "") :
    ((onEvent s (Frame.chunk d)).2).filter isLifecycleEvent =
      [SSEEvent.outputItemAddedMessage, SSEEvent.contentPartAdded] := by
  simp only [onEvent]
  rw [if_neg ht]
  simp [hs, List.filter_append, toolEvs_filter _ tool_not_lifecycle,
    isLifecycleEvent]

theorem get_mem_take {α : Type} (l : List α) (i j : Nat) (hi : i < l.length)
    (hij : i < j) : l.get ⟨i, hi⟩ ∈ l.take j := by
  rw [List.mem_iff_getElem?]
  refine ⟨i, ?_⟩
  rw [List.getElem?_take_of_lt hij, List.getElem?_eq_getElem hi]
  rfl

theorem runChunks_no_completed (ds : List ChunkDelta) (s : StreamState) :
    (runFrames s (ds.map Frame.chunk)).2.filter isResponseCompleted = [] :=
  runChunks_filter _
    (by intro e he; cases e <;> simp [isToolEvent] at he <;> rfl)
    rfl rfl (fun _ => rfl) ds s

theorem runChunks_no_done (ds : List ChunkDelta) (s : StreamState) :
    (runFrames s (ds.map Frame.chunk)).2.filter isResponseDone = [] :=
  runChunks_filter _
    (by intro e he; cases e <;> simp [isToolEvent] at he <;> rfl)
    rfl rfl (fun _ => rfl) ds s

theorem runChunks_no_textDone (ds : List ChunkDelta) (s : StreamState) :
    (runFrames s (ds.map Frame.chunk)).2.filter isOutputTextDone = [] :=
  runChunks_filter _
    (by intro e he; cases e <;> simp [isToolEvent] at he <;> rfl)
    rfl rfl (fun _ => rfl) ds s

theorem runChunks_no_itemDone (ds : List ChunkDelta) (s : StreamState) :
    (runFrames s (ds.map Frame.chunk)).2.filter isOutputItemDone = [] :=
  runChunks_filter _
    (by intro e he; cases e <;> simp [isToolEvent] at he <;> rfl)
    rfl rfl (fun _ => rfl) ds s

theorem runChunks_no_error (ds : List ChunkDelta) (s : StreamState) :
    (runFrames s (ds.map Frame.chunk)).2.filter isErrorEvent = [] :=
  runChunks_filter _
    (by intro e he; cases e <;> simp [isToolEvent] at he <;> rfl)
    rfl rfl (fun _ => rfl) ds s

theorem runFrames_filter_tool (fs : List Frame) : ∀ s : StreamState,
    (runFrames s fs).2.filter isToolEvent =
      (fs.flatMap frameToolCalls).filterMap toolCallEvent := by
  induction fs with
  | nil => intro s; simp [runFrames]
  | cons f fs ih =>
    intro s
    simp only [runFrames, List.flatMap_cons, List.filter_append,
      List.filterMap_append]
    cases f with
    | done =>
      simp only [onEvent]
      by_cases hc : s.completionSent = true
      · rw [if_pos hc]
        simp [ih, frameToolCalls]
      · rw [if_neg hc]
        simp [ih, frameToolCalls, completionEvents, isToolEvent]
    | malformed e => simp [onEvent, ih, frameToolCalls, isToolEvent]
    | chunk d =>
      simp only [onEvent]
      by_cases ht : textOf d = ""
      · rw [if_pos ht]
        simp [ih, frameToolCalls, List.filter_append, toolEvs_filter_self]
      · rw [if_neg ht]
        cases hfc : s.firstChunk <;>
          simp [hfc, ih, frameToolCalls, List.filter_append,
            toolEvs_filter_self, isToolEvent]

theorem model_values_canonical :
    ∀ p ∈ MODEL_MAPPING, mapToCopilotModel p.2 = p.2 := by decide

theorem convertLoop_eq (ts : List RawTool) :
    ∀ acc, convertLoop acc ts = acc ++ ts.filterMap convertOne := by
  induction ts with
  | nil => intro acc; simp [convertLoop]
  | cons t ts ih =>
    intro acc
    cases h : convertOne t with
    | some c => simp [convertLoop, h, ih, List.filterMap_cons_some]
    | none => simp [convertLoop, h, ih, List.filterMap_cons_none]

/-! ## Claim theorems for the request-side normalization -/

/-- C5: `fixToolMessagePairing` is idempotent — repairing its own output
yields the same result as repairing once. -/
theorem fixToolMessagePairing_idempotent (ms : List OpenAIMessage) :
    fixToolMessagePairing (fixToolMessagePairing ms) = fixToolMessagePairing ms :=
  fixGo_idem ms []

/-- C10: `fixToolMessagePairing` is length-preserving, and every message
that is not an orphaned tool result (orphaned with respect to the
tool-call ids seen up to and including its position) appears in the
output at the same position, unchanged in every field. -/
theorem fixToolMessagePairing_frame (ms : List OpenAIMessage) :
    (fixToolMessagePairing ms).length = ms.length ∧
    ∀ i m, ms[i]? = some m → isOrphan (seenThrough ms i) m = false →
      (fixToolMessagePairing ms)[i]? = some m := by
  refine ⟨fixGo_length ms [], ?_⟩
  intro i m hm hno
  rw [fixToolMessagePairing, fixGo_getElem?, hm,
    show (ms.take (i + 1)).flatMap toolIdsOf = seenThrough ms i from rfl]
  simp [hno]

/-- Witness for C10 at a concrete one-message history. -/
theorem fixToolMessagePairing_frame_witness :
    (fixToolMessagePairing [{ role := Role.user, content := some "hi" }]).length = 1 ∧
    (fixToolMessagePairing [{ role := Role.user, content := some "hi" }])[0]? =
      some { role := Role.user, content := some "hi" } :=
  ⟨(fixToolMessagePairing_frame _).1,
   (fixToolMessagePairing_frame _).2 0 _ (by decide) (by decide)⟩

/-- C4 counterexample: the claim quantifies over tool-role messages whose
id was never emitted by a preceding assistant message and asserts that
the repaired list contains no tool-role message with that id.  The
history `c4Msgs` refutes it at two points: the tool message at index 1
references id `x` before any assistant emitted it, yet a later
occurrence of id `x` (index 3, after an assistant did emit it) survives
repair; and the tool message at index 0 carries the falsy id `""`,
which no assistant ever emits, yet it survives repair unchanged because
the source only rewrites messages with a truthy `tool_call_id`. -/
theorem fix_orphan_counterexample :
    ((c4Msgs[1]?).map (fun m => m.role) = some Role.tool ∧
      (c4Msgs[1]?).map (fun m => m.tool_call_id) = some (some "x") ∧
      "x" ∉ (c4Msgs.take 1).flatMap toolIdsOf) ∧
    ((c4Msgs[0]?).map (fun m => m.role) = some Role.tool ∧
      (c4Msgs[0]?).map (fun m => m.tool_call_id) = some (some "") ∧
      "" ∉ c4Msgs.flatMap toolIdsOf) ∧
    (∃ m ∈ fixToolMessagePairing c4Msgs,
      m.role = Role.tool ∧ m.tool_call_id = some "x") ∧
    (∃ m ∈ fixToolMessagePairing c4Msgs,
      m.role = Role.tool ∧ m.tool_call_id = some "") := by
  decide

/-- C4 (amended): a tool-role message whose truthy (non-empty)
`tool_call_id` is emitted in the `tool_calls` of no assistant message
anywhere in the list is replaced, at its position, by the user-role
message `orphanReplacement` (the original output in brackets, capped at
200 characters with an ellipsis marker when longer), and the repaired
list contains no tool-role message with that id. -/
theorem fix_orphan_replacement (ms : List OpenAIMessage) (i : Nat)
    (m : OpenAIMessage) (cid : String) (hm : ms[i]? = some m)
    (hrole : m.role = Role.tool) (hid : m.tool_call_id = some cid)
    (hne : cid ≠ "") (hnot : cid ∉ ms.flatMap toolIdsOf) :
    (fixToolMessagePairing ms)[i]? = some (orphanReplacement m.content) ∧
    ∀ m2 ∈ fixToolMessagePairing ms,
      ¬(m2.role = Role.tool ∧ m2.tool_call_id = some cid) := by
  have hsub : ∀ j, cid ∉ (ms.take j).flatMap toolIdsOf := by
    intro j hmem
    apply hnot
    rw [List.mem_flatMap] at hmem ⊢
    obtain ⟨a, ha, hca⟩ := hmem
    exact ⟨a, List.take_subset _ _ ha, hca⟩
  constructor
  · have horph : isOrphan ((ms.take (i + 1)).flatMap toolIdsOf) m = true :=
      isOrphan_eq_true_iff.mpr ⟨hrole, cid, hid, hne, hsub (i + 1)⟩
    rw [fixToolMessagePairing, fixGo_getElem?, hm]
    simp [horph]
  · intro m2 hm2 hbad
    rw [List.mem_iff_getElem?] at hm2
    obtain ⟨j, hj⟩ := hm2
    rw [fixToolMessagePairing, fixGo_getElem?] at hj
    cases ho : ms[j]? with
    | none =>
      rw [ho] at hj
      exact Option.noConfusion hj
    | some orig =>
      rw [ho] at hj
      simp only [Option.map_some', Option.some.injEq] at hj
      by_cases horig :
          isOrphan ([] ++ (ms.take (j + 1)).flatMap toolIdsOf) orig = true
      · rw [if_pos horig] at hj
        rw [← hj] at hbad
        exact Role.noConfusion hbad.1
      · rw [if_neg horig] at hj
        subst hj
        apply horig
        rw [List.nil_append]
        exact isOrphan_eq_true_iff.mpr ⟨hbad.1, cid, hbad.2, hne, hsub (j + 1)⟩

/-- Witness for the amended C4 at a one-message history whose only
member is an orphaned tool result. -/
theorem fix_orphan_replacement_witness :
    (fixToolMessagePairing
        [{ role := Role.tool, content := some "out", tool_call_id := some "y" }])[0]? =
      some (orphanReplacement (some "out")) ∧
    ∀ m2 ∈ fixToolMessagePairing
        [{ role := Role.tool, content := some "out", tool_call_id := some "y" }],
      ¬(m2.role = Role.tool ∧ m2.tool_call_id = some "y") :=
  fix_orphan_replacement
    [{ role := Role.tool, content := some "out", tool_call_id := some "y" }] 0
    { role := Role.tool, content := some "out", tool_call_id := some "y" } "y"
    (by decide) (by decide) (by decide) (by decide) (by decide)

/-- C6: model alias resolution is case-insensitive and idempotent:
`GPT-4O` and `gpt-4o` resolve to the same canonical value, every
canonical value (a value of the table) resolves to itself, resolving
twice equals resolving once for every input string, and an identifier
whose lower-casing is not in the table is returned unchanged. -/
theorem mapToCopilotModel_spec :
    mapToCopilotModel "GPT-4O" = mapToCopilotModel "gpt-4o" ∧
    (∀ k v, (k, v) ∈ MODEL_MAPPING → mapToCopilotModel v = v) ∧
    (∀ x, mapToCopilotModel (mapToCopilotModel x) = mapToCopilotModel x) ∧
    (∀ x, MODEL_MAPPING.lookup (jsToLower x) = none → mapToCopilotModel x = x) := by
  refine ⟨by decide, ?_, ?_, ?_⟩
  · intro k v hmem
    exact model_values_canonical (k, v) hmem
  · intro x
    cases h : MODEL_MAPPING.lookup (jsToLower x) with
    | none =>
      have hx : mapToCopilotModel x = x := by
        simp only [mapToCopilotModel, h]
      rw [hx, hx]
    | some v =>
      have hx : mapToCopilotModel x = v := by
        simp only [mapToCopilotModel, h]
      rw [hx]
      exact model_values_canonical (jsToLower x, v) (lookup_mem h)
  · intro x h
    simp only [mapToCopilotModel, h]

/-- Witness for C6: a retired alias maps to its canonical replacement,
which is itself a fixed point, and an unknown identifier passes through. -/
theorem mapToCopilotModel_spec_witness :
    mapToCopilotModel "gpt-5-mini" = "gpt-5-mini" ∧
    mapToCopilotModel "some-unmapped-model" = "some-unmapped-model" :=
  ⟨mapToCopilotModel_spec.2.1 "o1" "gpt-5-mini" (by decide),
   mapToCopilotModel_spec.2.2.2 "some-unmapped-model" (by decide)⟩

/-- C7: the tool schema normalizer is total (it is a Lean function, so
it cannot raise); its result is absent exactly when no input was given
or every entry was filtered out; when some entries convert, the result
is exactly the conversions of the convertible entries in their original
relative order (entries without a valid non-empty string name convert
to `none` and are absent); and the result is never an empty sequence. -/
theorem convertToolsForCopilot_spec (tools : Option (List RawTool)) :
    (convertToolsForCopilot tools = none ↔
      tools = none ∨ ∃ ts, tools = some ts ∧ ts.filterMap convertOne = []) ∧
    (∀ ts, tools = some ts → ts.filterMap convertOne ≠ [] →
      convertToolsForCopilot tools = some (ts.filterMap convertOne)) ∧
    convertToolsForCopilot tools ≠ some [] := by
  cases tools with
  | none => simp [convertToolsForCopilot]
  | some ts =>
    have hloop : convertLoop [] ts = ts.filterMap convertOne := by
      rw [convertLoop_eq]; simp
    have hcomp : convertToolsForCopilot (some ts) =
        if ts.length = 0 then none
        else if (ts.filterMap convertOne).length = 0 then none
        else some (ts.filterMap convertOne) := by
      simp only [convertToolsForCopilot, hloop]
    refine ⟨?_, ?_, ?_⟩
    · rw [hcomp]
      by_cases hts : ts.length = 0
      · have hnil : ts = [] := List.length_eq_zero.mp hts
        subst hnil
        simp
      · rw [if_neg hts]
        by_cases hcv : (ts.filterMap convertOne).length = 0
        · have hnil := List.length_eq_zero.mp hcv
          rw [if_pos hcv]
          exact iff_of_true rfl (Or.inr ⟨ts, rfl, hnil⟩)
        · have hne : ts.filterMap convertOne ≠ [] := fun hc =>
            hcv (by rw [hc]; rfl)
          rw [if_neg hcv]
          refine iff_of_false (fun h => Option.noConfusion h) ?_
          rintro (h | ⟨ts2, h2, hnil2⟩)
          · exact Option.noConfusion h
          · cases h2
            exact hne hnil2
    · intro ts2 hts2 hne2
      cases hts2
      have hts : ¬ts.length = 0 := by
        intro h0
        have hnil : ts = [] := List.length_eq_zero.mp h0
        subst hnil
        exact hne2 rfl
      have hcv : ¬(ts.filterMap convertOne).length = 0 := by
        intro h0
        exact hne2 (List.length_eq_zero.mp h0)
      rw [hcomp, if_neg hts, if_neg hcv]
    · rw [hcomp]
      split
      · exact fun h => Option.noConfusion h
      · split
        · exact fun h => Option.noConfusion h
        · next hB =>
          intro h
          have hfm : ts.filterMap convertOne = [] := by
            injection h
          exact hB (by rw [hfm]; rfl)

/-- Witness for C7: a valid entry converts, an entry with a missing name
is dropped, and the valid entry survives. -/
theorem convertToolsForCopilot_spec_witness :
    convertToolsForCopilot (some
      [RawTool.obj (some "function") (some { name := some (.str "lookup_docs") })
        none none none none,
       RawTool.obj (some "function") (some { name := none }) none none none none]) =
      some [{ name := "lookup_docs", description := "",
              parameters := SchemaVal.emptyObjectSchema, strict := none }] :=
  ((convertToolsForCopilot_spec (some
      [RawTool.obj (some "function") (some { name := some (.str "lookup_docs") })
        none none none none,
       RawTool.obj (some "function") (some { name := none }) none none none none])).2.1
    _ rfl (by decide)).trans (by decide)


/-! ## Claim theorems for the responses-variant stream synthesizer -/

/-- C1: for every upstream delta sequence terminated by the `[DONE]`
sentinel, the responses-variant output contains exactly one
`response.completed` and exactly one `response.done` event, each
carrying text equal to the concatenation, in arrival order, of every
non-empty text fragment received before the sentinel. -/
theorem responses_sentinel_exactly_once (ds : List ChunkDelta) :
    (responsesStream (ds.map Frame.chunk ++ [Frame.done])).filter
        isResponseCompleted =
      [SSEEvent.responseCompleted (concatTexts ds)] ∧
    (responsesStream (ds.map Frame.chunk ++ [Frame.done])).filter
        isResponseDone =
      [SSEEvent.responseDone (concatTexts ds)] := by
  have hst := runChunks_state ds initialState
  have hacc : (runFrames initialState (ds.map Frame.chunk)).1.accumulatedText =
      concatTexts ds := by
    rw [hst.1]
    exact String.empty_append _
  have hcs : (runFrames initialState (ds.map Frame.chunk)).1.completionSent =
      false := hst.2
  have hdone : runFrames (runFrames initialState (ds.map Frame.chunk)).1
      [Frame.done] =
      ({ (runFrames initialState (ds.map Frame.chunk)).1 with
           completionSent := true },
       completionEvents (concatTexts ds)) := by
    simp [runFrames, onEvent, hcs, hacc]
  have hend : endEvents
      { (runFrames initialState (ds.map Frame.chunk)).1 with
          completionSent := true } = [] := by
    simp [endEvents]
  unfold responsesStream
  rw [runFrames_append, hdone]
  constructor
  · simp [hend, List.filter_append, runChunks_no_completed,
      completionEvents, isResponseCompleted]
  · simp [hend, List.filter_append, runChunks_no_done,
      completionEvents, isResponseDone]

/-- C2 counterexample: the claim asserts the closing quartet fires
exactly once whenever the upstream body closes without a `[DONE]`
sentinel, for any number N of content frames.  At N = 0 the synthesizer
emits no closing events at all (the `end` handler is guarded by
`accumulatedText.length > 0`), and the same happens when the only frame
carries a tool-call delta but no text. -/
theorem responses_end_counterexample :
    responsesStream [] = [SSEEvent.responseCreated] ∧
    (responsesStream []).countP isResponseCompleted = 0 ∧
    (responsesStream []).countP isResponseDone = 0 ∧
    (responsesStream [c8Frame]).countP isResponseCompleted = 0 ∧
    (responsesStream [c8Frame]).countP isResponseDone = 0 := by
  decide

/-- C2 (amended): when the upstream stream ends without ever sending
`[DONE]` and at least one non-empty text fragment was received, the
closing quartet (`response.output_text.done`, `response.output_item.done`,
`response.completed`, `response.done`) still fires exactly once, each
event carrying the full accumulated text; with no accumulated text the
`end` handler emits no closing events. -/
theorem responses_end_quartet (ds : List ChunkDelta)
    (h : concatTexts ds ≠ "") :
    (responsesStream (ds.map Frame.chunk)).filter isOutputTextDone =
      [SSEEvent.outputTextDone (concatTexts ds)] ∧
    (responsesStream (ds.map Frame.chunk)).filter isOutputItemDone =
      [SSEEvent.outputItemDone (concatTexts ds)] ∧
    (responsesStream (ds.map Frame.chunk)).filter isResponseCompleted =
      [SSEEvent.responseCompleted (concatTexts ds)] ∧
    (responsesStream (ds.map Frame.chunk)).filter isResponseDone =
      [SSEEvent.responseDone (concatTexts ds)] := by
  have hst := runChunks_state ds initialState
  have hacc : (runFrames initialState (ds.map Frame.chunk)).1.accumulatedText =
      concatTexts ds := by
    rw [hst.1]
    exact String.empty_append _
  have hcs : (runFrames initialState (ds.map Frame.chunk)).1.completionSent =
      false := hst.2
  have hend : endEvents (runFrames initialState (ds.map Frame.chunk)).1 =
      completionEvents (concatTexts ds) := by
    unfold endEvents
    rw [hacc, hcs]
    rw [if_pos ⟨string_length_pos.mpr h, rfl⟩]
  simp only [responsesStream]
  rw [hend]
  refine ⟨?_, ?_, ?_, ?_⟩
  · simp [List.filter_append, runChunks_no_textDone,
      completionEvents, isOutputTextDone]
  · simp [List.filter_append, runChunks_no_itemDone,
      completionEvents, isOutputItemDone]
  · simp [List.filter_append, runChunks_no_completed,
      completionEvents, isResponseCompleted]
  · simp [List.filter_append, runChunks_no_done,
      completionEvents, isResponseDone]

/-- Witness for the amended C2: three content frames `Hel`, `lo`,
` world` followed by stream close with no sentinel yield a
`response.done` carrying `Hello world`. -/
theorem responses_end_quartet_witness :
    concatTexts [{ content := some "Hel" }, { content := some "lo" },
      { content := some " world" }] ≠ "" ∧
    (responsesStream ([{ content := some "Hel" }, { content := some "lo" },
        { content := some " world" }].map Frame.chunk)).filter isResponseDone =
      [SSEEvent.responseDone "Hello world"] :=
  ⟨by decide,
   ((responses_end_quartet
      [{ content := some "Hel" }, { content := some "lo" },
       { content := some " world" }] (by decide)).2.2.2).trans (by decide)⟩

/-- C3: the message-item `output_item.added` and `content_part.added`
events are each emitted at most once per stream; on the first frame
carrying non-empty text they are emitted, in that order, and no other
frame emits them. -/
theorem responses_lifecycle_once (fs : List Frame) :
    ((responsesStream fs).countP isItemAddedMessage ≤ 1 ∧
     (responsesStream fs).countP isContentPartAdded ≤ 1) ∧
    ∀ i (hi : i < fs.length),
      frameText (fs.get ⟨i, hi⟩) ≠ "" →
      (∀ f ∈ fs.take i, frameText f = "") →
      ((eventsOfFrame fs ⟨i, hi⟩).filter isLifecycleEvent =
        [SSEEvent.outputItemAddedMessage, SSEEvent.contentPartAdded]) ∧
      (∀ j (hj : j < fs.length), j ≠ i →
        (eventsOfFrame fs ⟨j, hj⟩).filter isLifecycleEvent = []) := by
  constructor
  · have hfl := runFrames_filter_lifecycle fs initialState
    have hc1 : (runFrames initialState fs).2.countP isItemAddedMessage ≤ 1 := by
      rw [countP_eq_countP_filter isItemAddedMessage isLifecycleEvent
        (by intro e he; cases e <;> simp [isItemAddedMessage] at he <;> rfl),
        hfl]
      split <;> decide
    have hc2 : (runFrames initialState fs).2.countP isContentPartAdded ≤ 1 := by
      rw [countP_eq_countP_filter isContentPartAdded isLifecycleEvent
        (by intro e he; cases e <;> simp [isContentPartAdded] at he <;> rfl),
        hfl]
      split <;> decide
    have hend1 : (endEvents (runFrames initialState fs).1).countP
        isItemAddedMessage = 0 := by
      unfold endEvents
      split <;> rfl
    have hend2 : (endEvents (runFrames initialState fs).1).countP
        isContentPartAdded = 0 := by
      unfold endEvents
      split <;> rfl
    unfold responsesStream
    simp only [List.countP_cons, List.countP_append, hend1, hend2]
    constructor
    · simpa [isItemAddedMessage] using hc1
    · simpa [isContentPartAdded] using hc2
  · intro i hi hne hpre
    have hstate : (stateAfter fs i).firstChunk = true := by
      unfold stateAfter
      rw [runFrames_firstChunk]
      have hall : (fs.take i).all (fun f => frameText f == "") = true := by
        rw [List.all_eq_true]
        intro f hf
        exact beq_iff_eq.mpr (hpre f hf)
      simp [hall, initialState]
    constructor
    · unfold eventsOfFrame
      cases hf : fs.get ⟨i, hi⟩ with
      | done =>
        rw [hf] at hne
        exact absurd rfl hne
      | malformed e =>
        rw [hf] at hne
        exact absurd rfl hne
      | chunk d =>
        have ht : textOf d ≠ "" := by
          rw [hf] at hne
          exact hne
        exact onEvent_lifecycle_first _ hstate ht
    · intro j hj hji
      unfold eventsOfFrame
      rcases Nat.lt_or_ge j i with hlt | hge
      · exact onEvent_lifecycle_empty _ (hpre _ (get_mem_take fs j i hj hlt))
      · have hij : i < j := Nat.lt_of_le_of_ne hge (fun h2 => hji h2.symm)
        apply onEvent_lifecycle_latched
        unfold stateAfter
        rw [runFrames_firstChunk]
        have hallf : (fs.take j).all (fun f => frameText f == "") = false := by
          apply Bool.eq_false_iff.mpr
          intro hall
          rw [List.all_eq_true] at hall
          have h3 := hall _ (get_mem_take fs i j hi hij)
          rw [beq_iff_eq] at h3
          exact hne h3
        simp [hallf]

/-- Witness for C3 at a two-frame stream whose second frame carries the
first non-empty text. -/
theorem responses_lifecycle_once_witness :
    ((responsesStream c3Frames).countP isItemAddedMessage ≤ 1 ∧
     (responsesStream c3Frames).countP isContentPartAdded ≤ 1) ∧
    (eventsOfFrame c3Frames ⟨1, by decide⟩).filter isLifecycleEvent =
      [SSEEvent.outputItemAddedMessage, SSEEvent.contentPartAdded] :=
  ⟨(responses_lifecycle_once c3Frames).1,
   ((responses_lifecycle_once c3Frames).2 1 (by decide) (by decide)
      (by decide)).1⟩

/-- C8 counterexample: the claim asserts at most one function-call
`output_item.added` event per distinct tool-call id per stream, and
that an id, once seen, is marked seen.  The source has no such set:
feeding the same id-and-name delta twice emits two function-call
`output_item.added` events. -/
theorem responses_tool_dedup_counterexample :
    (responsesStream [c8Frame, c8Frame]).countP isFnCallAdded = 2 ∧
    ¬((responsesStream [c8Frame, c8Frame]).countP isFnCallAdded ≤ 1) := by
  decide

/-- C8 (amended): tool-call handling is stateless per delta — a
function-call `output_item.added` event is emitted for every delta
carrying a truthy id and function name (with no per-id deduplication),
a delta without them but with a truthy arguments fragment emits a
`function_call_arguments.delta` event, and these are, in delta order,
exactly the tool events of the stream. -/
theorem responses_tool_events (fs : List Frame) :
    (responsesStream fs).filter isToolEvent =
      (fs.flatMap frameToolCalls).filterMap toolCallEvent := by
  unfold responsesStream
  have hend : (endEvents (runFrames initialState fs).1).filter isToolEvent =
      [] :=
    filter_completionEvents_eq_nil isToolEvent (fun _ => rfl) _
  simp [List.filter_append, hend, runFrames_filter_tool, isToolEvent]

/-- C9: a frame that fails to parse as JSON produces exactly one inline
error event and nothing else: the stream with the malformed frame
equals the stream without it except for the inserted `error` event (the
state threaded into the subsequent frames and the `end` handler is
unchanged), and when all other frames are well-formed chunks the error
event is unique. -/
theorem responses_malformed_recovery (pre post : List ChunkDelta)
    (e : String) :
    responsesStream
        (pre.map Frame.chunk ++ Frame.malformed e :: post.map Frame.chunk) =
      SSEEvent.responseCreated ::
        ((runFrames initialState (pre.map Frame.chunk)).2 ++
          SSEEvent.errorEvent e ::
            ((runFrames (runFrames initialState (pre.map Frame.chunk)).1
                (post.map Frame.chunk)).2 ++
              endEvents (runFrames
                (runFrames initialState (pre.map Frame.chunk)).1
                (post.map Frame.chunk)).1)) ∧
    responsesStream (pre.map Frame.chunk ++ post.map Frame.chunk) =
      SSEEvent.responseCreated ::
        ((runFrames initialState (pre.map Frame.chunk)).2 ++
          ((runFrames (runFrames initialState (pre.map Frame.chunk)).1
              (post.map Frame.chunk)).2 ++
            endEvents (runFrames
              (runFrames initialState (pre.map Frame.chunk)).1
              (post.map Frame.chunk)).1)) ∧
    (responsesStream
        (pre.map Frame.chunk ++
          Frame.malformed e :: post.map Frame.chunk)).countP isErrorEvent =
      1 := by
  have hmal : ∀ s : StreamState,
      runFrames s (Frame.malformed e :: post.map Frame.chunk) =
        ((runFrames s (post.map Frame.chunk)).1,
         SSEEvent.errorEvent e :: (runFrames s (post.map Frame.chunk)).2) := by
    intro s
    simp [runFrames, onEvent]
  have h1 : responsesStream
      (pre.map Frame.chunk ++ Frame.malformed e :: post.map Frame.chunk) =
      SSEEvent.responseCreated ::
        ((runFrames initialState (pre.map Frame.chunk)).2 ++
          SSEEvent.errorEvent e ::
            ((runFrames (runFrames initialState (pre.map Frame.chunk)).1
                (post.map Frame.chunk)).2 ++
              endEvents (runFrames
                (runFrames initialState (pre.map Frame.chunk)).1
                (post.map Frame.chunk)).1)) := by
    unfold responsesStream
    rw [runFrames_append, hmal]
    simp [List.append_assoc]
  have h2 : responsesStream (pre.map Frame.chunk ++ post.map Frame.chunk) =
      SSEEvent.responseCreated ::
        ((runFrames initialState (pre.map Frame.chunk)).2 ++
          ((runFrames (runFrames initialState (pre.map Frame.chunk)).1
              (post.map Frame.chunk)).2 ++
            endEvents (runFrames
              (runFrames initialState (pre.map Frame.chunk)).1
              (post.map Frame.chunk)).1)) := by
    unfold responsesStream
    rw [runFrames_append]
    simp [List.append_assoc]
  refine ⟨h1, h2, ?_⟩
  rw [h1]
  have hpre0 : (runFrames initialState (pre.map Frame.chunk)).2.countP
      isErrorEvent = 0 := by
    rw [List.countP_eq_length_filter, runChunks_no_error]
    rfl
  have hpost0 : (runFrames (runFrames initialState (pre.map Frame.chunk)).1
      (post.map Frame.chunk)).2.countP isErrorEvent = 0 := by
    rw [List.countP_eq_length_filter, runChunks_no_error]
    rfl
  have hend0 : (endEvents (runFrames
      (runFrames initialState (pre.map Frame.chunk)).1
      (post.map Frame.chunk)).1).countP isErrorEvent = 0 := by
    rw [List.countP_eq_length_filter,
      filter_completionEvents_eq_nil isErrorEvent (fun _ => rfl)]
    rfl
  simp [List.countP_cons, List.countP_append, hpre0, hpost0, hend0,
    isErrorEvent]

end CopilotProxy
